import Mathlib

/-!
# HomePage export flow

A shallow embedding of `src/Pages/HomePage/HomePage.jsx`: the field catalog
`allHeaders`, the validation / fetch / clean / render pipeline of
`fetchRegistrations`, and the two renderers `exportToCSV` and `exportToPDF`.

React state is an explicit record (`State`); every observable action of the
component (toast, network request, renderer invocation, produced file,
console log) is an `Effect` appended to a trace. The `await` is modelled by a
`server` function that answers the single request.
-/

namespace HomePage

/-! ## JavaScript values -/

/-- JSON values as they arrive from the remote source, plus `undefined`
(the result of reading a property an object does not have). -/
inductive JsVal where
  | undefined
  | null
  | bool (b : Bool)
  | num (n : Int)
  | str (s : String)
  | arr (xs : List JsVal)
  | obj (ps : List (String × JsVal))

/-- JavaScript truthiness (`!x` is its negation). -/
def JsVal.truthy : JsVal → Bool
  | .undefined => false
  | .null => false
  | .bool b => b
  | .num n => n != 0
  | .str s => s != ""
  | .arr _ => true
  | .obj _ => true

/-- The JavaScript expression `a || b`. -/
def jsOr (a b : JsVal) : JsVal := if a.truthy then a else b

/-- A plain JavaScript object: its own enumerable properties in own-property
order. A registration record is such an object. -/
abbrev Record := List (String × JsVal)

/-- Property read `item[key]` on a plain object: the value of the own
property, `undefined` when there is none (no key read by the component is
a member of `Object.prototype`). -/
def getProp : Record → String → JsVal
  | [], _ => .undefined
  | (k, v) :: rest, key => if k = key then v else getProp rest key

/-- Whether the object has an own property `key`. -/
def hasProp (o : Record) (key : String) : Bool := o.any (fun p => p.1 == key)

/-- Numeric value of a string of decimal digits. -/
def indexValue (k : String) : Nat :=
  k.toList.foldl (fun n c => 10 * n + (c.toNat - 48)) 0

/-- Whether a property key is an array index (a canonical decimal integer
below `2^32 - 1`); such keys are ordered numerically before all other keys. -/
def isArrayIndex (k : String) : Bool :=
  let cs := k.toList
  !cs.isEmpty && cs.all Char.isDigit && (cs.length == 1 || cs.head? != some '0')
    && decide (indexValue k < 4294967295)

/-- Position of a new array-index key among the existing keys: after the
index keys that are smaller, before everything else. -/
def insertIndexed (k : String) (v : JsVal) : Record → Record
  | [] => [(k, v)]
  | (k', v') :: rest =>
    if isArrayIndex k' && decide (indexValue k' < indexValue k) then
      (k', v') :: insertIndexed k v rest
    else (k, v) :: (k', v') :: rest

/-- Property write `row[key] = v` on a plain object: an existing property
keeps its position and takes the new value; a new one is added at the end
(or, for an array-index key, at its numeric position). -/
def setProp (o : Record) (key : String) (v : JsVal) : Record :=
  if hasProp o key then o.map (fun p => if p.1 = key then (key, v) else p)
  else if isArrayIndex key then insertIndexed key v o
  else o ++ [(key, v)]

/-- Exceptions the flow can raise: a `TypeError` (property read on `null`),
a `RangeError` (date-fns `format` on an invalid date), or the rejection of
the request, carrying `error.response?.data?.message`. -/
inductive JsError where
  | typeError
  | rangeError
  | axios (serverMessage : JsVal)

/-! ## Dates -/

/-- The host's date services: `timeValue v` is the time value in
milliseconds of `new Date(v)` (`none` for an invalid date), and
`tzOffset t` is the local zone's offset from UTC, in minutes east, at the
instant `t`. -/
structure Host where
  timeValue : JsVal → Option Int
  tzOffset : Int → Int

/-- Calendar date (year, month 1-12, day 1-31) of a day number counted from
1970-01-01, in the proleptic Gregorian calendar. -/
def civilFromDays (z : Int) : Int × Nat × Nat :=
  let z1 := z + 719468
  let era := z1 / 146097
  let doe := z1 % 146097
  let yoe := (doe - doe / 1460 + doe / 36524 - doe / 146096) / 365
  let doy := doe - (365 * yoe + yoe / 4 - yoe / 100)
  let mp := (5 * doy + 2) / 153
  let d := doy - (153 * mp + 2) / 5 + 1
  let m := if mp < 10 then mp + 3 else mp - 9
  let y := yoe + era * 400 + (if m ≤ 2 then 1 else 0)
  (y, m.toNat, d.toNat)

/-- Local calendar date of a time value: `getFullYear()`, `getMonth() + 1`
and `getDate()`. -/
def localDate (host : Host) (t : Int) : Int × Nat × Nat :=
  civilFromDays ((t + 60000 * host.tzOffset t) / 86400000)

/-- Decimal digits of `n`, zero-padded on the left to at least `len`
characters (`addLeadingZeros` of date-fns, on a non-negative number). -/
def addLeadingZeros (n len : Nat) : String :=
  let s := Nat.repr n
  String.mk (List.replicate (len - s.length) '0') ++ s

/-- The year as the `yyyy` token prints it: the calendar year, counted
`1 - y` for the years up to 0, on at least four digits. -/
def yearText (y : Int) : String :=
  addLeadingZeros (if y > 0 then y.toNat else (1 - y).toNat) 4

/-- The two patterns the component passes to date-fns `format`:
`'yyyy/MM/dd'` (request body) and `'dd-MM-yyyy'` (exported cell). -/
inductive DatePattern where
  | yyyyMMdd
  | ddMMyyyy

/-- Text of a valid date in the host's local zone under one of the patterns. -/
def formatValid (host : Host) (t : Int) : DatePattern → String
  | .yyyyMMdd =>
    let (y, m, d) := localDate host t
    yearText y ++ "/" ++ addLeadingZeros m 2 ++ "/" ++ addLeadingZeros d 2
  | .ddMMyyyy =>
    let (y, m, d) := localDate host t
    addLeadingZeros d 2 ++ "-" ++ addLeadingZeros m 2 ++ "-" ++ yearText y

/-- The date-fns call `format(date, pattern)` (date-fns 2 and later, whose
pattern letters `yyyy`, `MM`, `dd` the component uses): a `RangeError` on an
invalid date, the local calendar date written out otherwise. -/
def format (host : Host) (date : Option Int) (p : DatePattern) : Except JsError String :=
  match date with
  | none => .error .rangeError
  | some t => .ok (formatValid host t p)

/-- A sample host in a zone at a fixed offset from UTC (minutes east).
`new Date(undefined)` is an invalid date, `new Date(null)` the epoch, a
boolean or a number in range its own time value, and the text
`2024-03-05T10:00:00Z` the instant 1709632800000 (day 19787 of the epoch,
ten hours in); this host reads no other text, array or object. -/
def fixedOffsetHost (offsetMinutes : Int) : Host where
  timeValue := fun v =>
    match v with
    | .undefined => none
    | .null => some 0
    | .bool b => some (if b then 1 else 0)
    | .num n => if -8640000000000000 ≤ n ∧ n ≤ 8640000000000000 then some n else none
    | .str s => if s = "2024-03-05T10:00:00Z" then some 1709632800000 else none
    | _ => none
  tzOffset := fun _ => offsetMinutes

/-! ## Field catalog and component state -/

/-- An option of the multi-select: `{ label, value }`. -/
structure Header where
  label : String
  value : String
  deriving DecidableEq

/-- The catalog of exportable fields. -/
def allHeaders : List Header :=
  [ ⟨"Name", "firstName"⟩,
    ⟨"Age", "age"⟩,
    ⟨"Gender", "gender"⟩,
    ⟨"Email", "email"⟩,
    ⟨"Mobile Number", "mobile_number"⟩,
    ⟨"Date of Registration", "createdAt"⟩,
    ⟨"Patient ID", "patientId"⟩ ]

/-- The keys removed from every record by the destructuring pattern in
`fetchRegistrations`. -/
def denylist : List String :=
  ["_id", "isRegistered", "updatedAt", "__v", "address", "city", "state", "pincode",
   "reason", "typeOfVisit", "middleName", "lastname"]

/-- The cleaning step on one record:
`({ _id, isRegistered, ..., lastname, ...rest }) => rest`. -/
def cleanRecord (r : Record) : Record :=
  r.filter (fun p => !denylist.contains p.1)

/-- The properties of a raw record that cleaning removes. -/
def deniedProps (raw : Record) : Record := raw.filter (fun p => denylist.contains p.1)

/-- The `useState` cells of the component. Dates are `null` (`none`) or
the time value of the date picked in the date picker; an entry of
`selectedHeaders` is a catalog option or the `null` placeholder. -/
structure State where
  registrations : List Record
  isLoadingExcel : Bool
  isLoadingPDF : Bool
  fromDate : Option Int
  toDate : Option Int
  modalIsOpen : Bool
  selectedHeaders : List (Option Header)

/-- The state of the first render. -/
def initialState : State :=
  { registrations := [], isLoadingExcel := false, isLoadingPDF := false,
    fromDate := none, toDate := none, modalIsOpen := false, selectedHeaders := [] }

/-- What the component does to the outside world. -/
inductive Effect where
  | toastError (msg : JsVal)
  | post (url : String) (fromDate toDate : String)
  | invokeCSV (data : List Record)
  | invokePDF (data : List Record)
  | writeFile (file sheet : String) (worksheetData : List Record) (cols : List Nat)
  | savePdf (file : String) (head : List (List JsVal)) (body : List (List JsVal))
  | consoleError (label : String) (error : JsError)

/-- Outcome of the awaited `axios.post`: a response whose body has the
field `data` (`none` when absent or `null`, otherwise the list of records)
and the field `message`, or a rejection carrying
`error.response?.data?.message` (`undefined` when the failure has none). -/
inductive NetResult where
  | resolved (data : Option (List Record)) (message : JsVal)
  | rejected (serverMessage : JsVal)

/-! ## Renderers -/

/-- The descriptor `{ label: header.label, key: header.value }` built by
`exportToCSV`. -/
structure CsvHeader where
  label : String
  key : String

/-- `selectedHeaders.map(header => ({ label: header.label, key: header.value }))`:
reading a property of the `null` placeholder raises a `TypeError`. -/
def csvHeaders (selectedHeaders : List (Option Header)) : Except JsError (List CsvHeader) :=
  selectedHeaders.mapM (fun header =>
    match header with
    | none => .error .typeError
    | some h => .ok ⟨h.label, h.value⟩)

/-- The value `exportToCSV` stores under `header.label` for one record. -/
def csvCell (host : Host) (item : Record) (header : CsvHeader) : Except JsError JsVal :=
  if header.key = "createdAt" then
    match format host (host.timeValue (getProp item header.key)) .ddMMyyyy with
    | .error e => .error e
    | .ok s => .ok (.str s)
  else .ok (getProp item header.key)

/-- The body of `data.map(item => { const row = {}; headers.forEach(...); return row; })`
for one record. -/
def csvRow (host : Host) (headers : List CsvHeader) (item : Record) : Except JsError Record :=
  headers.foldlM (fun row header =>
    match csvCell host item header with
    | .error e => .error e
    | .ok v => .ok (setProp row header.label v)) []

/-- The row unshifted in front of the data rows:
`headers.reduce((acc, header) => { acc[header.label] = header.label; return acc; }, {})`. -/
def csvHeaderRow (headers : List CsvHeader) : Record :=
  headers.foldl (fun acc header => setProp acc header.label (.str header.label)) []

/-- The array handed to `XLSX.utils.json_to_sheet` by `exportToCSV`: the data
rows, with the header row unshifted in front. -/
def worksheetData (host : Host) (headers : List CsvHeader) (data : List Record) :
    Except JsError (List Record) :=
  match data.mapM (csvRow host headers) with
  | .error e => .error e
  | .ok rows => .ok (csvHeaderRow headers :: rows)

/-- The renderer `exportToCSV(data)`, closed over `selectedHeaders`: the
file it writes (sheet `Registrations`, one column width of 150 per header),
or the exception it raises. -/
def exportToCSV (host : Host) (selectedHeaders : List (Option Header)) (data : List Record) :
    Except JsError Effect :=
  match csvHeaders selectedHeaders with
  | .error e => .error e
  | .ok headers =>
    match worksheetData host headers data with
    | .error e => .error e
    | .ok sheetRows =>
      .ok (.writeFile "registrations.xlsx" "Registrations" sheetRows
        (headers.map (fun _ => 150)))

/-- `selectedHeaders.map(header => header.label)` of `exportToPDF`. -/
def pdfHead (selectedHeaders : List (Option Header)) : Except JsError (List JsVal) :=
  selectedHeaders.mapM (fun header =>
    match header with
    | none => .error .typeError
    | some h => .ok (.str h.label))

/-- The cell `exportToPDF` computes for one record and one selected header. -/
def pdfCell (host : Host) (item : Record) (header : Option Header) : Except JsError JsVal :=
  match header with
  | none => .error .typeError
  | some h =>
    if h.value = "createdAt" then
      match format host (host.timeValue (getProp item h.value)) .ddMMyyyy with
      | .error e => .error e
      | .ok s => .ok (.str s)
    else .ok (getProp item h.value)

/-- `data.map(item => selectedHeaders.map(header => ...))` of `exportToPDF`. -/
def pdfRows (host : Host) (selectedHeaders : List (Option Header)) (data : List Record) :
    Except JsError (List (List JsVal)) :=
  data.mapM (fun item => selectedHeaders.mapM (pdfCell host item))

/-- The renderer `exportToPDF(data)`, closed over `selectedHeaders`: the
document it saves (`head: [headers]`, `body: rows`), or the exception it
raises. -/
def exportToPDF (host : Host) (selectedHeaders : List (Option Header)) (data : List Record) :
    Except JsError Effect :=
  match pdfHead selectedHeaders with
  | .error e => .error e
  | .ok headers =>
    match pdfRows host selectedHeaders data with
    | .error e => .error e
    | .ok rows => .ok (.savePdf "registrations.pdf" [headers] rows)

/-! ## fetchRegistrations -/

/-- The endpoint of the request. -/
def endpoint : String := "https://giostar.onrender.com/registration/getAll"

/-- Result of running the `try` block: the state and trace reached, and the
exception that left the block, if any. -/
structure TryOutcome where
  state : State
  effects : List Effect
  thrown : Option JsError

/-- The `try` block of `fetchRegistrations`, entered with both dates set. -/
def tryBlock (host : Host) (server : String → String → NetResult) (s : State)
    (fromDate toDate : Int) (fileFormat : String) : TryOutcome :=
  match format host (some fromDate) .yyyyMMdd with
  | .error e => ⟨s, [], some e⟩
  | .ok formattedFromDate =>
  match format host (some toDate) .yyyyMMdd with
  | .error e => ⟨s, [], some e⟩
  | .ok formattedToDate =>
  let request := Effect.post endpoint formattedFromDate formattedToDate
  match server formattedFromDate formattedToDate with
  | .rejected serverMessage => ⟨s, [request], some (.axios serverMessage)⟩
  | .resolved none message =>
    ⟨s, [request, .toastError (jsOr message (.str "Empty Registrations"))], none⟩
  | .resolved (some []) message =>
    ⟨s, [request, .toastError (jsOr message (.str "Empty Registrations"))], none⟩
  | .resolved (some (r :: rs)) _ =>
    let filteredData := (r :: rs).map cleanRecord
    let s1 := { s with registrations := filteredData }
    if fileFormat = "csv" then
      match exportToCSV host s.selectedHeaders filteredData with
      | .error e => ⟨s1, [request, .invokeCSV filteredData], some e⟩
      | .ok file =>
        ⟨{ s1 with modalIsOpen := false }, [request, .invokeCSV filteredData, file], none⟩
    else if fileFormat = "pdf" then
      match exportToPDF host s.selectedHeaders filteredData with
      | .error e => ⟨s1, [request, .invokePDF filteredData], some e⟩
      | .ok file =>
        ⟨{ s1 with modalIsOpen := false }, [request, .invokePDF filteredData, file], none⟩
    else ⟨{ s1 with modalIsOpen := false }, [request], none⟩

/-- The `catch` block: one toast with the server's message or the generic
text, and one console log. -/
def catchBlock (error : JsError) : List Effect :=
  let serverMessage :=
    match error with
    | .axios m => m
    | _ => .undefined
  [.toastError (jsOr serverMessage (.str "Error fetching registrations")),
   .consoleError "Error fetching registrations:" error]

/-- The `finally` block. -/
def finallyBlock (s : State) : State :=
  { s with isLoadingExcel := false, isLoadingPDF := false,
           fromDate := none, toDate := none, selectedHeaders := [none] }

/-- The handler `fetchRegistrations(fileFormat)` run in state `s`: the
state after the call and the trace of its effects, in order. -/
def fetchRegistrations (host : Host) (server : String → String → NetResult) (s : State)
    (fileFormat : String) : State × List Effect :=
  match s.fromDate, s.toDate with
  | some fromDate, some toDate =>
    if s.selectedHeaders.length = 0 then
      (s, [.toastError (.str "Please select at least one header.")])
    else
      let s1 := if fileFormat = "csv" then { s with isLoadingExcel := true }
                else { s with isLoadingPDF := true }
      let out := tryBlock host server s1 fromDate toDate fileFormat
      let caught := match out.thrown with
        | some e => catchBlock e
        | none => []
      (finallyBlock out.state, out.effects ++ caught)
  | _, _ => (s, [.toastError (.str "Please select both from and to dates.")])

/-- `resetModalState`. -/
def resetModalState (s : State) : State :=
  { s with fromDate := none, toDate := none, selectedHeaders := [] }

/-- `closeModal`. -/
def closeModal (s : State) : State :=
  resetModalState { s with modalIsOpen := false }

/-! ## Observations on a trace -/

/-- A network request. -/
def Effect.isRequest : Effect → Bool
  | .post _ _ _ => true
  | _ => false

/-- A renderer invocation. -/
def Effect.isRender : Effect → Bool
  | .invokeCSV _ => true
  | .invokePDF _ => true
  | _ => false

/-- A produced file. -/
def Effect.isFile : Effect → Bool
  | .writeFile _ _ _ _ => true
  | .savePdf _ _ _ => true
  | _ => false

/-- A notification. -/
def Effect.isToast : Effect → Bool
  | .toastError _ => true
  | _ => false

/-- The messages shown, in order. -/
def toasts : List Effect → List JsVal
  | [] => []
  | .toastError m :: es => m :: toasts es
  | _ :: es => toasts es

/-- The renderer invocations of a trace, in order. -/
def renders (es : List Effect) : List Effect := es.filter Effect.isRender

/-! ## Specified cell values -/

/-- The text `DD-MM-YYYY` of a calendar date (year, month, day). -/
def dayMonthYear (ymd : Int × Nat × Nat) : String :=
  addLeadingZeros ymd.2.2 2 ++ "-" ++ addLeadingZeros ymd.2.1 2 ++ "-" ++ yearText ymd.1

/-- The value an exported cell is specified to hold: for the key `createdAt`
the raw timestamp, read by the host and written `DD-MM-YYYY` in its local
zone (no value when the host reads an invalid date); for every other key the
record's value under that key, unchanged. -/
def renderedValue (host : Host) (item : Record) (h : Header) : Option JsVal :=
  if h.value = "createdAt" then
    (host.timeValue (getProp item "createdAt")).map
      (fun t => JsVal.str (dayMonthYear (localDate host t)))
  else some (getProp item h.value)

/-! ## Sample inputs -/

/-- A host on UTC. -/
def utcHost : Host := fixedOffsetHost 0

/-- A raw record as the remote source returns it, carrying all twelve
denylisted keys. -/
def sampleRaw : Record :=
  [("_id", .str "65e6f0a1"), ("firstName", .str "Asha"), ("middleName", .str ""),
   ("lastname", .str "Rao"), ("age", .num 41), ("gender", .str "F"),
   ("email", .str "asha@example.org"), ("mobile_number", .str "9000000001"),
   ("address", .str "12 Lake Road"), ("city", .str "Pune"), ("state", .str "MH"),
   ("pincode", .str "411001"), ("reason", .str "checkup"), ("typeOfVisit", .str "OP"),
   ("patientId", .str "P-0001"), ("isRegistered", .bool true),
   ("createdAt", .str "2024-03-05T10:00:00Z"), ("updatedAt", .str "2024-03-05T10:00:00Z"),
   ("__v", .num 0)]

/-- A raw record with no denylisted key and no creation timestamp. -/
def sampleBare : Record :=
  [("firstName", .str "Ravi"), ("email", .str "ravi@example.org")]

/-- The catalog options used in the samples. -/
def nameHeader : Header := ⟨"Name", "firstName"⟩

/-- The catalog option `Email`. -/
def emailHeader : Header := ⟨"Email", "email"⟩

/-- The catalog option `Date of Registration`. -/
def dateHeader : Header := ⟨"Date of Registration", "createdAt"⟩

/-- A dialog state ready for export: both dates picked, `Name` and `Email`
selected. -/
def sampleState : State :=
  { initialState with
    fromDate := some 1709251200000, toDate := some 1711843200000, modalIsOpen := true,
    selectedHeaders := [some nameHeader, some emailHeader] }

/-- A remote source that answers every request with two records. -/
def sampleServer : String → String → NetResult :=
  fun _ _ => .resolved (some [sampleRaw, sampleBare]) .undefined

/-- A remote source with no registrations in the range. -/
def emptyServer : String → String → NetResult :=
  fun _ _ => .resolved (some []) (.str "No registrations found")

/-- A remote source that cannot be reached. -/
def downServer : String → String → NetResult :=
  fun _ _ => .rejected .undefined

/-- A remote source that answers with the single record `sampleBare`. -/
def bareServer : String → String → NetResult :=
  fun _ _ => .resolved (some [sampleBare]) .undefined

/-- A host fourteen hours ahead of UTC (the Line Islands). -/
def lineIslandsHost : Host := fixedOffsetHost 840

/-- The two sample records after cleaning. -/
def sampleCleaned : List Record := [sampleRaw, sampleBare].map cleanRecord

/-! ## Lemmas -/

theorem exportToCSV_ok_kind {host : Host} {sel : List (Option Header)} {data : List Record}
    {e : Effect} (h : exportToCSV host sel data = .ok e) :
    e.isRequest = false ∧ e.isRender = false ∧ e.isToast = false ∧ e.isFile = true := by
  unfold exportToCSV at h
  split at h
  · cases h
  · split at h
    · cases h
    · cases h; exact ⟨rfl, rfl, rfl, rfl⟩

theorem exportToPDF_ok_kind {host : Host} {sel : List (Option Header)} {data : List Record}
    {e : Effect} (h : exportToPDF host sel data = .ok e) :
    e.isRequest = false ∧ e.isRender = false ∧ e.isToast = false ∧ e.isFile = true := by
  unfold exportToPDF at h
  split at h
  · cases h
  · split at h
    · cases h
    · cases h; exact ⟨rfl, rfl, rfl, rfl⟩

/-- With both dates set and a non-empty selection the handler runs the
`try` block, then `catch` on an exception, then `finally`. -/
theorem fetch_valid (host : Host) (server : String → String → NetResult) (s : State)
    (fmt : String) (a b : Int) (hf : s.fromDate = some a) (ht : s.toDate = some b)
    (hs : s.selectedHeaders ≠ []) :
    fetchRegistrations host server s fmt =
      (finallyBlock (tryBlock host server
          (if fmt = "csv" then { s with isLoadingExcel := true }
           else { s with isLoadingPDF := true }) a b fmt).state,
       (tryBlock host server
          (if fmt = "csv" then { s with isLoadingExcel := true }
           else { s with isLoadingPDF := true }) a b fmt).effects ++
        (match (tryBlock host server
          (if fmt = "csv" then { s with isLoadingExcel := true }
           else { s with isLoadingPDF := true }) a b fmt).thrown with
        | some e => catchBlock e
        | none => [])) := by
  unfold fetchRegistrations
  have : s.selectedHeaders.length ≠ 0 := by
    intro h; exact hs (List.length_eq_zero.mp h)
  simp [hf, ht, this]

/-- The `try` block issues the request first and no other request after it. -/
theorem tryBlock_post (host : Host) (server : String → String → NetResult) (s : State)
    (a b : Int) (fmt : String) :
    ∃ rest, (tryBlock host server s a b fmt).effects =
      Effect.post endpoint (formatValid host a .yyyyMMdd) (formatValid host b .yyyyMMdd) :: rest
      ∧ rest.countP Effect.isRequest = 0 := by
  unfold tryBlock
  simp only [format]
  cases hsrv : server (formatValid host a .yyyyMMdd) (formatValid host b .yyyyMMdd) with
  | rejected m => exact ⟨[], rfl, rfl⟩
  | resolved data msg =>
    cases data with
    | none => exact ⟨_, rfl, rfl⟩
    | some l =>
      cases l with
      | nil => exact ⟨_, rfl, rfl⟩
      | cons r rs =>
        simp only
        split
        · cases hexp : exportToCSV host s.selectedHeaders ((r :: rs).map cleanRecord) with
          | error e => exact ⟨_, rfl, rfl⟩
          | ok file =>
            refine ⟨_, rfl, ?_⟩
            have hk := (exportToCSV_ok_kind hexp).1
            simp only [List.countP_cons, List.countP_nil, hk]
            rfl
        · split
          · cases hexp : exportToPDF host s.selectedHeaders ((r :: rs).map cleanRecord) with
            | error e => exact ⟨_, rfl, rfl⟩
            | ok file =>
              refine ⟨_, rfl, ?_⟩
              have hk := (exportToPDF_ok_kind hexp).1
              simp only [List.countP_cons, List.countP_nil, hk]
              rfl
          · exact ⟨_, rfl, rfl⟩

/-- What the `try` block does when the request is rejected. -/
theorem tryBlock_rejected (host : Host) (server : String → String → NetResult) (s : State)
    (a b : Int) (fmt : String) (m : JsVal)
    (hsrv : server (formatValid host a .yyyyMMdd) (formatValid host b .yyyyMMdd)
      = .rejected m) :
    tryBlock host server s a b fmt =
      ⟨s, [.post endpoint (formatValid host a .yyyyMMdd) (formatValid host b .yyyyMMdd)],
        some (.axios m)⟩ := by
  unfold tryBlock
  simp only [format, hsrv]

/-- What the `try` block does when the response carries no record. -/
theorem tryBlock_empty (host : Host) (server : String → String → NetResult) (s : State)
    (a b : Int) (fmt : String) (data : Option (List Record)) (msg : JsVal)
    (hsrv : server (formatValid host a .yyyyMMdd) (formatValid host b .yyyyMMdd)
      = .resolved data msg)
    (hdata : data = none ∨ data = some []) :
    tryBlock host server s a b fmt =
      ⟨s, [.post endpoint (formatValid host a .yyyyMMdd) (formatValid host b .yyyyMMdd),
           .toastError (jsOr msg (.str "Empty Registrations"))], none⟩ := by
  unfold tryBlock
  rcases hdata with h | h <;> subst h <;> simp only [format, hsrv]

theorem cleanRecord_cons_of_mem (k : String) (v : JsVal) (rest : Record)
    (h : k ∈ denylist) : cleanRecord ((k, v) :: rest) = cleanRecord rest := by
  unfold cleanRecord
  exact List.filter_cons_of_neg (by simpa using h)

theorem cleanRecord_cons_of_not_mem (k : String) (v : JsVal) (rest : Record)
    (h : k ∉ denylist) : cleanRecord ((k, v) :: rest) = (k, v) :: cleanRecord rest := by
  unfold cleanRecord
  exact List.filter_cons_of_pos (by simpa using h)

theorem getProp_cleanRecord (r : Record) (k : String) (hk : k ∉ denylist) :
    getProp (cleanRecord r) k = getProp r k := by
  induction r with
  | nil => rfl
  | cons p rest ih =>
    obtain ⟨k', v⟩ := p
    by_cases hd : k' ∈ denylist
    · have hne : k' ≠ k := fun h => hk (h ▸ hd)
      rw [cleanRecord_cons_of_mem k' v rest hd, ih]
      simp [getProp, hne]
    · rw [cleanRecord_cons_of_not_mem k' v rest hd]
      simp [getProp, ih]

theorem mem_cleanRecord (r : Record) (p : String × JsVal) :
    p ∈ cleanRecord r ↔ p ∈ r ∧ p.1 ∉ denylist := by
  simp [cleanRecord]

theorem hasProp_cleanRecord_denied (r : Record) (k : String) (hk : k ∈ denylist) :
    hasProp (cleanRecord r) k = false := by
  unfold hasProp
  rw [Bool.eq_false_iff]
  intro h
  rw [List.any_eq_true] at h
  obtain ⟨p, hp, hpk⟩ := h
  have hpk : p.1 = k := by simpa using hpk
  exact ((mem_cleanRecord r p).1 hp).2 (hpk ▸ hk)

/-- What the `try` block and the `catch` block do with a non-empty list of
records: the cleaned list is stored and handed to the renderer of the
requested format, and to no other. -/
theorem tryBlock_success (host : Host) (server : String → String → NetResult) (s : State)
    (a b : Int) (fmt : String) (r : Record) (rs : List Record) (msg : JsVal)
    (hsrv : server (formatValid host a .yyyyMMdd) (formatValid host b .yyyyMMdd)
      = .resolved (some (r :: rs)) msg) :
    (tryBlock host server s a b fmt).state.registrations = (r :: rs).map cleanRecord
    ∧ renders ((tryBlock host server s a b fmt).effects ++
        (match (tryBlock host server s a b fmt).thrown with
         | some e => catchBlock e
         | none => []))
      = if fmt = "csv" then [.invokeCSV ((r :: rs).map cleanRecord)]
        else if fmt = "pdf" then [.invokePDF ((r :: rs).map cleanRecord)]
        else [] := by
  unfold tryBlock
  simp only [format, hsrv]
  by_cases hcsv : fmt = "csv"
  · simp only [hcsv, if_true]
    cases hexp : exportToCSV host s.selectedHeaders ((r :: rs).map cleanRecord) with
    | error e => exact ⟨rfl, rfl⟩
    | ok file =>
      refine ⟨rfl, ?_⟩
      have hk := (exportToCSV_ok_kind hexp).2.1
      simp only [renders, List.filter_cons, List.cons_append, List.nil_append, hk]
      rfl
  · simp only [hcsv, if_false]
    by_cases hpdf : fmt = "pdf"
    · simp only [hpdf, if_true]
      cases hexp : exportToPDF host s.selectedHeaders ((r :: rs).map cleanRecord) with
      | error e => exact ⟨rfl, rfl⟩
      | ok file =>
        refine ⟨rfl, ?_⟩
        have hk := (exportToPDF_ok_kind hexp).2.1
        simp only [renders, List.filter_cons, List.cons_append, List.nil_append, hk]
        rfl
    · simp only [hpdf, if_false]
      constructor <;> first | rfl | trivial

theorem cleanRecord_length (raw : Record) :
    (cleanRecord raw).length + (deniedProps raw).length = raw.length := by
  induction raw with
  | nil => rfl
  | cons p rest ih =>
    obtain ⟨k, v⟩ := p
    by_cases hd : k ∈ denylist
    · have hc : denylist.contains k = true := by simpa using hd
      rw [cleanRecord_cons_of_mem k v rest hd]
      simp only [deniedProps, List.filter_cons, hc, if_true, List.length_cons] at ih ⊢
      omega
    · have hc : denylist.contains k = false := by simpa using hd
      rw [cleanRecord_cons_of_not_mem k v rest hd]
      simp only [deniedProps, List.filter_cons, hc, List.length_cons] at ih ⊢
      simp only [Bool.false_eq_true, if_false]
      omega

theorem hasProp_iff_mem_keys (raw : Record) (k : String) :
    hasProp raw k = true ↔ k ∈ raw.map Prod.fst := by
  unfold hasProp
  rw [List.any_eq_true]
  constructor
  · rintro ⟨p, hp, h⟩
    exact List.mem_map.2 ⟨p, hp, by simpa using h⟩
  · intro h
    obtain ⟨p, hp, rfl⟩ := List.mem_map.1 h
    exact ⟨p, hp, by simp⟩

/-- With pairwise distinct keys, the denylisted properties of a record are
at most twelve, and twelve exactly when every denylisted key is present. -/
theorem deniedProps_length (raw : Record) (hnd : (raw.map Prod.fst).Nodup) :
    (deniedProps raw).length ≤ 12
    ∧ ((deniedProps raw).length = 12 ↔ ∀ k ∈ denylist, hasProp raw k = true) := by
  have hsub : ((deniedProps raw).map Prod.fst).Sublist (raw.map Prod.fst) :=
    (List.filter_sublist raw).map Prod.fst
  have hnd2 : ((deniedProps raw).map Prod.fst).Nodup := hnd.sublist hsub
  have hin : (deniedProps raw).map Prod.fst ⊆ denylist := by
    intro k hk
    rw [List.mem_map] at hk
    obtain ⟨p, hp, rfl⟩ := hk
    have := (List.mem_filter.1 hp).2
    simpa using this
  have hsp : List.Subperm ((deniedProps raw).map Prod.fst) denylist :=
    List.subperm_of_subset hnd2 hin
  have hle : (deniedProps raw).length ≤ 12 := by
    have := hsp.length_le
    simpa [denylist] using this
  refine ⟨hle, ?_, ?_⟩
  · intro h12 k hk
    have hperm : List.Perm ((deniedProps raw).map Prod.fst) denylist :=
      hsp.perm_of_length_le (by simp [denylist, h12])
    have hmem : k ∈ (deniedProps raw).map Prod.fst := hperm.mem_iff.2 hk
    exact (hasProp_iff_mem_keys raw k).2 (hsub.subset hmem)
  · intro hall
    have hin2 : denylist ⊆ (deniedProps raw).map Prod.fst := by
      intro k hk
      have hmem : k ∈ raw.map Prod.fst := (hasProp_iff_mem_keys raw k).1 (hall k hk)
      rw [List.mem_map] at hmem ⊢
      obtain ⟨p, hp, rfl⟩ := hmem
      exact ⟨p, List.mem_filter.2 ⟨hp, by simpa using hk⟩, rfl⟩
    have hdn : denylist.Nodup := by decide
    have hsp2 : List.Subperm denylist ((deniedProps raw).map Prod.fst) :=
      List.subperm_of_subset hdn hin2
    have := hsp2.length_le
    have h12 : denylist.length = 12 := rfl
    rw [List.length_map] at this
    omega

theorem mapM_ok_of_forall {α β : Type} (f : α → Except JsError β) (g : α → β) (l : List α)
    (h : ∀ x ∈ l, f x = .ok (g x)) : l.mapM f = .ok (l.map g) := by
  induction l with
  | nil => rfl
  | cons x xs ih =>
    rw [List.mapM_cons, h x (List.mem_cons_self x xs), ih (fun y hy => h y (List.mem_cons_of_mem x hy))]
    rfl

theorem mapM_some_ok {β : Type} (f : Option Header → Except JsError β) (g : Header → β)
    (sel : List Header) (h : ∀ x ∈ sel, f (some x) = .ok (g x)) :
    (sel.map some).mapM f = .ok (sel.map g) := by
  induction sel with
  | nil => rfl
  | cons x xs ih =>
    rw [List.map_cons, List.mapM_cons, h x (List.mem_cons_self x xs),
      ih (fun y hy => h y (List.mem_cons_of_mem x hy))]
    rfl

theorem foldlM_ok_of_forall {α β : Type} (f : β → α → Except JsError β) (g : β → α → β)
    (l : List α) (acc : β) (h : ∀ x ∈ l, ∀ b, f b x = .ok (g b x)) :
    l.foldlM f acc = .ok (l.foldl g acc) := by
  induction l generalizing acc with
  | nil => rfl
  | cons x xs ih =>
    rw [List.foldlM_cons, h x (List.mem_cons_self x xs) acc]
    exact ih (g acc x) (fun y hy => h y (List.mem_cons_of_mem x hy))

theorem setProp_fresh (o : Record) (k : String) (v : JsVal) (hk : hasProp o k = false)
    (hidx : isArrayIndex k = false) : setProp o k v = o ++ [(k, v)] := by
  simp [setProp, hk, hidx]

theorem foldl_setProp_fresh (pairs : Record) (acc : Record)
    (hnd : (acc.map Prod.fst ++ pairs.map Prod.fst).Nodup)
    (hidx : ∀ p ∈ pairs, isArrayIndex p.1 = false) :
    pairs.foldl (fun row p => setProp row p.1 p.2) acc = acc ++ pairs := by
  induction pairs generalizing acc with
  | nil => simp
  | cons p ps ih =>
    have hfresh : hasProp acc p.1 = false := by
      rw [Bool.eq_false_iff, Ne, hasProp_iff_mem_keys]
      intro hmem
      have := List.nodup_append.1 hnd
      exact this.2.2 hmem (by simp)
    rw [List.foldl_cons, setProp_fresh acc p.1 p.2 hfresh (hidx p (List.mem_cons_self p ps))]
    rw [ih (acc ++ [(p.1, p.2)]) ?_ (fun q hq => hidx q (List.mem_cons_of_mem p hq))]
    · simp
    · simpa [List.map_append, List.append_assoc] using hnd

theorem csvCell_eq_pdfCell (host : Host) (item : Record) (h : Header) :
    csvCell host item ⟨h.label, h.value⟩ = pdfCell host item (some h) := rfl

theorem pdfCell_eq_rendered (host : Host) (item : Record) (h : Header) :
    pdfCell host item (some h) =
      match renderedValue host item h with
      | some v => .ok v
      | none => .error .rangeError := by
  unfold pdfCell renderedValue
  by_cases hk : h.value = "createdAt"
  · simp only [hk, if_true]
    cases host.timeValue (getProp item "createdAt") <;> rfl
  · simp only [hk, if_false]

theorem catalog_labels_nodup (sel : List Header) (hcat : ∀ h ∈ sel, h ∈ allHeaders)
    (hnd : sel.Nodup) : (sel.map Header.label).Nodup := by
  have hinj : ∀ x ∈ allHeaders, ∀ y ∈ allHeaders, x.label = y.label → x = y := by decide
  exact List.Nodup.map_on (fun x hx y hy hxy => hinj x (hcat x hx) y (hcat y hy) hxy) hnd

theorem catalog_labels_not_index : ∀ h ∈ allHeaders, isArrayIndex h.label = false := by decide

theorem catalog_createdAt : ∀ h ∈ allHeaders, h.value = "createdAt" → h = dateHeader := by
  decide

theorem csvHeaderRow_catalog (sel : List Header) (hcat : ∀ h ∈ sel, h ∈ allHeaders)
    (hnd : sel.Nodup) :
    csvHeaderRow (sel.map (fun h => ⟨h.label, h.value⟩))
      = sel.map (fun h => (h.label, JsVal.str h.label)) := by
  unfold csvHeaderRow
  have h1 := foldl_setProp_fresh (sel.map (fun h => (h.label, JsVal.str h.label))) []
    (by simpa [List.map_map, Function.comp_def] using catalog_labels_nodup sel hcat hnd)
    (by
      intro p hp
      obtain ⟨h, hh, rfl⟩ := List.mem_map.1 hp
      exact catalog_labels_not_index h (hcat h hh))
  rw [List.foldl_map] at h1 ⊢
  simpa using h1

theorem csvRow_catalog (host : Host) (item : Record) (sel : List Header)
    (hcat : ∀ h ∈ sel, h ∈ allHeaders) (hnd : sel.Nodup)
    (hv : ∀ h ∈ sel, (renderedValue host item h).isSome = true) :
    csvRow host (sel.map (fun h => ⟨h.label, h.value⟩)) item
      = .ok (sel.map (fun h => (h.label, (renderedValue host item h).getD .undefined))) := by
  unfold csvRow
  rw [foldlM_ok_of_forall _
    (fun row (c : CsvHeader) =>
      setProp row c.label ((renderedValue host item ⟨c.label, c.key⟩).getD .undefined))]
  · have h1 := foldl_setProp_fresh
      (sel.map (fun h => (h.label, (renderedValue host item h).getD .undefined))) []
      (by simpa [List.map_map, Function.comp_def] using catalog_labels_nodup sel hcat hnd)
      (by
        intro p hp
        obtain ⟨h, hh, rfl⟩ := List.mem_map.1 hp
        exact catalog_labels_not_index h (hcat h hh))
    rw [List.foldl_map] at h1 ⊢
    simpa using h1
  · intro c hc row
    obtain ⟨h, hh, rfl⟩ := List.mem_map.1 hc
    have hcell := pdfCell_eq_rendered host item h
    rw [← csvCell_eq_pdfCell] at hcell
    rw [hcell]
    obtain ⟨v, hv'⟩ := Option.isSome_iff_exists.1 (hv h hh)
    simp only [hv', Option.getD_some]

theorem pdfRow_catalog (host : Host) (item : Record) (sel : List Header)
    (hv : ∀ h ∈ sel, (renderedValue host item h).isSome = true) :
    (sel.map some).mapM (pdfCell host item)
      = .ok (sel.map (fun h => (renderedValue host item h).getD .undefined)) := by
  apply mapM_some_ok
  intro h hh
  rw [pdfCell_eq_rendered]
  obtain ⟨v, hv'⟩ := Option.isSome_iff_exists.1 (hv h hh)
  simp only [hv', Option.getD_some]

theorem civilFromDays_bounds (z : Int) :
    1 ≤ (civilFromDays z).2.1 ∧ (civilFromDays z).2.1 ≤ 12
    ∧ 1 ≤ (civilFromDays z).2.2 ∧ (civilFromDays z).2.2 ≤ 31 := by
  simp only [civilFromDays]
  split <;> omega

theorem toDigitsCore_length (k : Nat) (fuel n : Nat) (ds : List Char) (hk : 1 ≤ k)
    (hn : n < 10 ^ k) (hn2 : 10 ^ (k - 1) ≤ n ∨ k = 1) (hf : n < fuel) :
    (Nat.toDigitsCore 10 fuel n ds).length = ds.length + k := by
  induction k generalizing fuel n ds with
  | zero => omega
  | succ k ih =>
    cases fuel with
    | zero => omega
    | succ fuel =>
      unfold Nat.toDigitsCore
      simp only
      by_cases h0 : n / 10 = 0
      · simp only [h0, if_true, List.length_cons]
        have : n < 10 := by omega
        rcases hn2 with h | h
        · cases k with
          | zero => rfl
          | succ k =>
            simp at h
            have : 10 ^ (k+1) ≥ 10 := by
              have := Nat.one_le_pow k 10 (by norm_num)
              rw [pow_succ]; omega
            omega
        · omega
      · simp only [h0, if_false]
        have hk1 : 1 ≤ k := by
          cases k with
          | zero => simp at hn; omega
          | succ k => omega
        rw [ih fuel (n/10) _ hk1 ?_ ?_ ?_]
        · simp; omega
        · rw [pow_succ] at hn; omega
        · rcases hn2 with h | h
          · simp at h
            by_cases hk2 : k = 1
            · right; exact hk2
            · left
              have : k - 1 + 1 = k := by omega
              rw [← this, pow_succ] at h
              omega
          · omega
        · omega

theorem repr_length (k n : Nat) (hk : 1 ≤ k) (hn : n < 10 ^ k)
    (hn2 : 10 ^ (k - 1) ≤ n ∨ k = 1) : (Nat.repr n).length = k := by
  have h := toDigitsCore_length k (n + 1) n [] hk hn hn2 (by omega)
  rw [List.length_nil, Nat.zero_add] at h
  exact h

theorem addLeadingZeros_length (n len : Nat) :
    (addLeadingZeros n len).length = max len (Nat.repr n).length := by
  unfold addLeadingZeros
  rw [String.length_append]
  show (List.replicate (len - (Nat.repr n).length) '0').length + (Nat.repr n).length = _
  rw [List.length_replicate]
  omega

theorem addLeadingZeros_two (n : Nat) (h : n < 100) : (addLeadingZeros n 2).length = 2 := by
  rw [addLeadingZeros_length]
  by_cases h10 : n < 10
  · rw [repr_length 1 n (by omega) (by simpa using h10) (Or.inr rfl)]; rfl
  · rw [repr_length 2 n (by omega) (by simpa using h) (Or.inl (by simpa using h10))]; rfl

theorem yearText_length (y : Int) :
    4 ≤ (yearText y).length ∧ (1 ≤ y → y ≤ 9999 → (yearText y).length = 4) := by
  unfold yearText
  constructor
  · rw [addLeadingZeros_length]; omega
  · intro h1 h2
    have hpos : y > 0 := by omega
    simp only [hpos, if_true]
    rw [addLeadingZeros_length]
    have hn1 : 1 ≤ y.toNat := by omega
    have hn2 : y.toNat ≤ 9999 := by omega
    generalize y.toNat = n at hn1 hn2
    by_cases c1 : n < 10
    · rw [repr_length 1 n (by omega) (by simpa using c1) (Or.inr rfl)]; rfl
    · by_cases c2 : n < 100
      · rw [repr_length 2 n (by omega) (by simpa using c2) (Or.inl (by simpa using c1))]; rfl
      · by_cases c3 : n < 1000
        · rw [repr_length 3 n (by omega) (by simpa using c3) (Or.inl (by simpa using c2))]; rfl
        · rw [repr_length 4 n (by omega) (by norm_num; omega) (Or.inl (by simpa using c3))]
          rfl

theorem localDate_text_shape (host : Host) (t : Int) :
    (addLeadingZeros (localDate host t).2.2 2).length = 2
    ∧ (addLeadingZeros (localDate host t).2.1 2).length = 2
    ∧ 4 ≤ (yearText (localDate host t).1).length
    ∧ (1 ≤ (localDate host t).1 → (localDate host t).1 ≤ 9999 →
        (yearText (localDate host t).1).length = 4) := by
  have hb := civilFromDays_bounds ((t + 60000 * host.tzOffset t) / 86400000)
  unfold localDate
  refine ⟨addLeadingZeros_two _ (by omega), addLeadingZeros_two _ (by omega),
    (yearText_length _).1, (yearText_length _).2⟩

theorem sample_instant_local (host : Host) (h1 : -600 ≤ host.tzOffset 1709632800000)
    (h2 : host.tzOffset 1709632800000 < 840) :
    dayMonthYear (localDate host 1709632800000) = "05-03-2024" := by
  have hq : (1709632800000 + 60000 * host.tzOffset 1709632800000) / 86400000 = 19787 := by
    omega
  unfold localDate
  rw [hq]
  decide

theorem csvHeaders_some (sel : List Header) :
    csvHeaders (sel.map some) = .ok (sel.map (fun h => ⟨h.label, h.value⟩)) :=
  mapM_some_ok _ _ sel (fun _ _ => rfl)

theorem pdfHead_some (sel : List Header) :
    pdfHead (sel.map some) = .ok (sel.map (fun h => JsVal.str h.label)) :=
  mapM_some_ok _ _ sel (fun _ _ => rfl)

/-- Every selected catalog field of every record has a value to render, as
soon as the creation timestamps are valid where that field is selected. -/
theorem rendered_isSome (host : Host) (data : List Record) (sel : List Header)
    (hcat : ∀ h ∈ sel, h ∈ allHeaders)
    (hdate : dateHeader ∈ sel →
      ∀ item ∈ data, (host.timeValue (getProp item "createdAt")).isSome = true) :
    ∀ item ∈ data, ∀ h ∈ sel, (renderedValue host item h).isSome = true := by
  intro item hitem h hh
  unfold renderedValue
  by_cases hk : h.value = "createdAt"
  · have hd : h = dateHeader := catalog_createdAt h (hcat h hh) hk
    have := hdate (hd ▸ hh) item hitem
    simp only [hk, if_true, Option.isSome_map']
    exact this
  · simp only [hk, if_false, Option.isSome_some]

/-- The sheet rows `exportToCSV` builds for a selection of distinct catalog
fields. -/
theorem worksheetData_catalog (host : Host) (data : List Record) (sel : List Header)
    (hcat : ∀ h ∈ sel, h ∈ allHeaders) (hnd : sel.Nodup)
    (hv : ∀ item ∈ data, ∀ h ∈ sel, (renderedValue host item h).isSome = true) :
    worksheetData host (sel.map (fun h => ⟨h.label, h.value⟩)) data =
      .ok (sel.map (fun h => (h.label, JsVal.str h.label)) ::
        data.map (fun item =>
          sel.map (fun h => (h.label, (renderedValue host item h).getD .undefined)))) := by
  unfold worksheetData
  rw [mapM_ok_of_forall _ _ data (fun item hitem => csvRow_catalog host item sel hcat hnd
    (hv item hitem))]
  simp only
  rw [csvHeaderRow_catalog sel hcat hnd]

/-- The body rows `exportToPDF` builds. -/
theorem pdfRows_catalog (host : Host) (data : List Record) (sel : List Header)
    (hv : ∀ item ∈ data, ∀ h ∈ sel, (renderedValue host item h).isSome = true) :
    pdfRows host (sel.map some) data =
      .ok (data.map (fun item =>
        sel.map (fun h => (renderedValue host item h).getD .undefined))) := by
  unfold pdfRows
  exact mapM_ok_of_forall _ _ data (fun item hitem => pdfRow_catalog host item sel (hv item hitem))

theorem getProp_map_label (sel : List Header) (v : Header → JsVal)
    (hnd : (sel.map Header.label).Nodup) (h : Header) (hh : h ∈ sel) :
    getProp (sel.map (fun x => (x.label, v x))) h.label = v h := by
  induction sel with
  | nil => cases hh
  | cons x xs ih =>
    rw [List.map_cons, List.nodup_cons] at hnd
    rw [List.map_cons]
    unfold getProp
    by_cases hx : x.label = h.label
    · simp only [hx, if_true]
      rcases List.mem_cons.1 hh with rfl | hmem
      · rfl
      · exact absurd (hx ▸ List.mem_map_of_mem Header.label hmem) hnd.1
    · simp only [hx, if_false]
      rcases List.mem_cons.1 hh with rfl | hmem
      · exact absurd rfl hx
      · exact ih hnd.2 hmem

/-! ## Claims -/

/-- C1. A call of `fetchRegistrations`, whatever the format, in a state where
`fromDate` is unset, or `toDate` is unset, or `selectedHeaders` is empty issues
no network request, invokes no renderer and shows exactly one message:
"Please select both from and to dates." when a date is unset (also when the
selection is empty as well), "Please select at least one header." otherwise.
The trace is that single toast. -/
theorem validation_failure_single_message (host : Host)
    (server : String → String → NetResult) (s : State) (fileFormat : String)
    (h : s.fromDate = none ∨ s.toDate = none ∨ s.selectedHeaders = []) :
    (fetchRegistrations host server s fileFormat).2 =
      [Effect.toastError (.str (if s.fromDate = none ∨ s.toDate = none
        then "Please select both from and to dates."
        else "Please select at least one header."))]
    ∧ (fetchRegistrations host server s fileFormat).2.countP Effect.isRequest = 0
    ∧ renders (fetchRegistrations host server s fileFormat).2 = []
    ∧ toasts (fetchRegistrations host server s fileFormat).2 =
      [.str (if s.fromDate = none ∨ s.toDate = none
        then "Please select both from and to dates."
        else "Please select at least one header.")] := by
  have key : (fetchRegistrations host server s fileFormat).2 =
      [Effect.toastError (.str (if s.fromDate = none ∨ s.toDate = none
        then "Please select both from and to dates."
        else "Please select at least one header."))] := by
    unfold fetchRegistrations
    cases hf : s.fromDate with
    | none => simp
    | some a =>
      cases ht : s.toDate with
      | none => simp
      | some b =>
        have hs : s.selectedHeaders = [] := by simpa [hf, ht] using h
        simp [hs]
  rw [key]
  exact ⟨rfl, rfl, rfl, rfl⟩

/-- Witness of C1: from-date picked, to-date missing, nothing selected. -/
theorem validation_failure_single_message_witness :
    (fetchRegistrations utcHost sampleServer
        { initialState with fromDate := some 1709251200000 } "pdf").2 =
      [Effect.toastError (.str "Please select both from and to dates.")] :=
  (validation_failure_single_message utcHost sampleServer
    { initialState with fromDate := some 1709251200000 } "pdf" (Or.inr (Or.inl rfl))).1

/-- C2. For a non-empty list of records returned by the remote source, the
cleaning step yields a list of the same length and order (record by record)
in which each cleaned record has none of the twelve denylisted keys and keeps
every other property of the original, in its place and with its value; that
list is stored and is the argument of the one renderer invoked: `exportToCSV`
for `'csv'`, `exportToPDF` for `'pdf'`. -/
theorem cleaned_list_is_rendered (host : Host) (server : String → String → NetResult)
    (s : State) (fileFormat : String) (a b : Int) (r : Record) (rs : List Record)
    (msg : JsVal)
    (hf : s.fromDate = some a) (ht : s.toDate = some b) (hs : s.selectedHeaders ≠ [])
    (hsrv : server (formatValid host a .yyyyMMdd) (formatValid host b .yyyyMMdd)
      = .resolved (some (r :: rs)) msg) :
    ((r :: rs).map cleanRecord).length = (r :: rs).length
    ∧ List.Forall₂
        (fun raw cleaned =>
          cleaned.Sublist raw
          ∧ (∀ k ∈ denylist, hasProp cleaned k = false)
          ∧ (∀ p ∈ raw, p.1 ∉ denylist → p ∈ cleaned)
          ∧ (∀ k, k ∉ denylist → getProp cleaned k = getProp raw k))
        (r :: rs) ((r :: rs).map cleanRecord)
    ∧ (fetchRegistrations host server s fileFormat).1.registrations
        = (r :: rs).map cleanRecord
    ∧ (fileFormat = "csv" → renders (fetchRegistrations host server s fileFormat).2
        = [.invokeCSV ((r :: rs).map cleanRecord)])
    ∧ (fileFormat = "pdf" → renders (fetchRegistrations host server s fileFormat).2
        = [.invokePDF ((r :: rs).map cleanRecord)]) := by
  refine ⟨by simp, ?_, ?_, ?_, ?_⟩
  · rw [List.forall₂_map_right_iff]
    refine List.forall₂_same.2 (fun raw _ => ⟨?_, ?_, ?_, ?_⟩)
    · exact List.filter_sublist _
    · exact fun k hk => hasProp_cleanRecord_denied raw k hk
    · exact fun p hp hk => (mem_cleanRecord raw p).2 ⟨hp, hk⟩
    · exact fun k hk => getProp_cleanRecord raw k hk
  · rw [fetch_valid host server s fileFormat a b hf ht hs]
    exact (tryBlock_success host server _ a b fileFormat r rs msg hsrv).1
  · intro hfmt
    rw [fetch_valid host server s fileFormat a b hf ht hs]
    rw [(tryBlock_success host server _ a b fileFormat r rs msg hsrv).2]
    simp [hfmt]
  · intro hfmt
    rw [fetch_valid host server s fileFormat a b hf ht hs]
    rw [(tryBlock_success host server _ a b fileFormat r rs msg hsrv).2]
    simp [hfmt]

/-- Witness of C2: two records, spreadsheet export. -/
theorem cleaned_list_is_rendered_witness :
    renders (fetchRegistrations utcHost sampleServer sampleState "csv").2
      = [.invokeCSV ([sampleRaw, sampleBare].map cleanRecord)] :=
  (cleaned_list_is_rendered utcHost sampleServer sampleState "csv" 1709251200000
    1711843200000 sampleRaw [sampleBare] .undefined rfl rfl (by simp [sampleState])
    rfl).2.2.2.1 rfl

/-- Counterexample to C3 as stated: the source returns one record with two
fields, none of them denylisted; the cleaned record has two fields, not
`2 - 12`. -/
theorem cleaned_field_count_counterexample :
    ¬ List.Forall₂ (fun raw cleaned => ((cleaned.length : Int) = (raw.length : Int) - 12))
        [sampleBare] (fetchRegistrations utcHost bareServer sampleState "csv").1.registrations := by
  have h : (fetchRegistrations utcHost bareServer sampleState "csv").1.registrations
      = [sampleBare] := rfl
  rw [h]
  intro hall
  cases hall with
  | cons h1 _ => revert h1; decide

/-- C3, amended. For a successful response with N records the cleaned
record set has N records, in the order of the response, and every cleaned
record has the original record's field count less the number of its fields
whose key is denylisted; for a record with pairwise distinct keys that is
the original count less 12 exactly when the record carries all twelve
denylisted keys. -/
theorem cleaned_field_count (host : Host) (server : String → String → NetResult)
    (s : State) (fileFormat : String) (a b : Int) (r : Record) (rs : List Record)
    (msg : JsVal)
    (hf : s.fromDate = some a) (ht : s.toDate = some b) (hs : s.selectedHeaders ≠ [])
    (hsrv : server (formatValid host a .yyyyMMdd) (formatValid host b .yyyyMMdd)
      = .resolved (some (r :: rs)) msg) :
    (fetchRegistrations host server s fileFormat).1.registrations.length = (r :: rs).length
    ∧ List.Forall₂
        (fun raw cleaned =>
          cleaned.length + (deniedProps raw).length = raw.length
          ∧ ((raw.map Prod.fst).Nodup →
              (cleaned.length + 12 = raw.length ↔ ∀ k ∈ denylist, hasProp raw k = true)))
        (r :: rs) (fetchRegistrations host server s fileFormat).1.registrations := by
  have hreg : (fetchRegistrations host server s fileFormat).1.registrations
      = (r :: rs).map cleanRecord := by
    rw [fetch_valid host server s fileFormat a b hf ht hs]
    exact (tryBlock_success host server _ a b fileFormat r rs msg hsrv).1
  rw [hreg]
  refine ⟨by simp, ?_⟩
  rw [List.forall₂_map_right_iff]
  refine List.forall₂_same.2 (fun raw _ => ⟨cleanRecord_length raw, fun hnd => ?_⟩)
  have hlen := cleanRecord_length raw
  have hd := (deniedProps_length raw hnd).2
  constructor
  · intro h; exact hd.1 (by omega)
  · intro h; have := hd.2 h; omega

/-- Witness of C3, amended: two records, one with all twelve denylisted
keys, one with none. -/
theorem cleaned_field_count_witness :
    (fetchRegistrations utcHost sampleServer sampleState "pdf").1.registrations.length
      = [sampleRaw, sampleBare].length :=
  (cleaned_field_count utcHost sampleServer sampleState "pdf" 1709251200000
    1711843200000 sampleRaw [sampleBare] .undefined rfl rfl (by simp [sampleState]) rfl).1

/-- Counterexample to C4 as stated: with `Date of Registration` selected and
a record that has no creation timestamp, date-fns `format` raises a
`RangeError` in both renderers, and neither builds any row. -/
theorem export_shape_counterexample :
    ¬ ((∃ file, exportToCSV utcHost [some dateHeader] [cleanRecord sampleBare] = .ok file)
      ∨ (∃ file, exportToPDF utcHost [some dateHeader] [cleanRecord sampleBare] = .ok file)) := by
  have h1 : exportToCSV utcHost [some dateHeader] [cleanRecord sampleBare]
      = .error .rangeError := rfl
  have h2 : exportToPDF utcHost [some dateHeader] [cleanRecord sampleBare]
      = .error .rangeError := rfl
  rw [h1, h2]
  rintro (⟨_, h⟩ | ⟨_, h⟩) <;> cases h

/-- C4, amended. For every list of N cleaned records and every selection of
k distinct catalog fields such that, when `Date of Registration` is among
them, the host reads every record's `createdAt` as a valid date:
`exportToCSV` writes `registrations.xlsx` from N+1 sheet rows, the first
mapping each selected label to itself and each of the N data rows having
exactly the k selected labels as columns, in selection order; `exportToPDF`
saves `registrations.pdf` with a head equal to the k selected labels in
selection order and N body rows of length k. -/
theorem export_shape (host : Host) (data : List Record) (sel : List Header)
    (hcat : ∀ h ∈ sel, h ∈ allHeaders) (hnd : sel.Nodup)
    (hdate : dateHeader ∈ sel →
      ∀ item ∈ data, (host.timeValue (getProp item "createdAt")).isSome = true) :
    ∃ rows body,
      exportToCSV host (sel.map some) data =
        .ok (.writeFile "registrations.xlsx" "Registrations"
          (sel.map (fun h => (h.label, JsVal.str h.label)) :: rows)
          (sel.map (fun _ => 150)))
      ∧ rows.length = data.length
      ∧ (∀ row ∈ rows, row.map Prod.fst = sel.map Header.label)
      ∧ exportToPDF host (sel.map some) data =
        .ok (.savePdf "registrations.pdf" [sel.map (fun h => JsVal.str h.label)] body)
      ∧ body.length = data.length
      ∧ (∀ cells ∈ body, cells.length = sel.length) := by
  have hv := rendered_isSome host data sel hcat hdate
  refine ⟨data.map (fun item =>
      sel.map (fun h => (h.label, (renderedValue host item h).getD .undefined))),
    data.map (fun item => sel.map (fun h => (renderedValue host item h).getD .undefined)),
    ?_, ?_, ?_, ?_, ?_, ?_⟩
  · unfold exportToCSV
    rw [csvHeaders_some]
    simp only
    rw [worksheetData_catalog host data sel hcat hnd hv]
    simp only [List.map_map, Function.comp_def]
  · simp
  · intro row hrow
    obtain ⟨item, _, rfl⟩ := List.mem_map.1 hrow
    simp [List.map_map, Function.comp_def]
  · unfold exportToPDF
    rw [pdfHead_some, pdfRows_catalog host data sel hv]
  · simp
  · intro cells hcells
    obtain ⟨item, _, rfl⟩ := List.mem_map.1 hcells
    simp

/-- Witness of C4, amended: the selection `[Name, Email]` over two cleaned
records. -/
theorem export_shape_witness :
    ∃ rows body,
      exportToCSV utcHost ([nameHeader, emailHeader].map some) sampleCleaned =
        .ok (.writeFile "registrations.xlsx" "Registrations"
          ([nameHeader, emailHeader].map (fun h => (h.label, JsVal.str h.label)) :: rows)
          ([nameHeader, emailHeader].map (fun _ => 150)))
      ∧ rows.length = sampleCleaned.length
      ∧ (∀ row ∈ rows, row.map Prod.fst = [nameHeader, emailHeader].map Header.label)
      ∧ exportToPDF utcHost ([nameHeader, emailHeader].map some) sampleCleaned =
        .ok (.savePdf "registrations.pdf"
          [[nameHeader, emailHeader].map (fun h => JsVal.str h.label)] body)
      ∧ body.length = sampleCleaned.length
      ∧ (∀ cells ∈ body, cells.length = [nameHeader, emailHeader].length) :=
  export_shape utcHost sampleCleaned [nameHeader, emailHeader] (by decide) (by decide)
    (fun h => absurd h (by decide))

/-- Counterexample to C5 as stated: on a host fourteen hours ahead of UTC
the raw timestamp `2024-03-05T10:00:00Z` falls on the next local day, and
both renderers put `06-03-2024` in the cell, not `05-03-2024`. -/
theorem cells_agree_counterexample :
    ¬ (pdfCell lineIslandsHost [("createdAt", .str "2024-03-05T10:00:00Z")] (some dateHeader)
        = .ok (.str "05-03-2024")
      ∨ csvCell lineIslandsHost [("createdAt", .str "2024-03-05T10:00:00Z")]
          ⟨dateHeader.label, dateHeader.value⟩ = .ok (.str "05-03-2024")) := by
  have h1 : pdfCell lineIslandsHost [("createdAt", .str "2024-03-05T10:00:00Z")]
      (some dateHeader) = .ok (.str "06-03-2024") := rfl
  have h2 : csvCell lineIslandsHost [("createdAt", .str "2024-03-05T10:00:00Z")]
      ⟨dateHeader.label, dateHeader.value⟩ = .ok (.str "06-03-2024") := rfl
  rw [h1, h2]
  simp

/-- C5, amended. For every list of records and every selection of distinct
catalog fields such that, when `Date of Registration` is selected, the host
reads every record's `createdAt` as a valid date: both renderers build their
rows, and for every record and every selected field the value `exportToPDF`
places in that field's cell equals the value `exportToCSV` places under that
field's label, namely `renderedValue`: for the key `createdAt` the host-local
calendar date of the raw timestamp written day-month-year, with a two-digit
day, a two-digit month and a year of at least four digits (exactly four for
the years 1 to 9999), and for every other key the record's value copied
unchanged. The raw timestamp `2024-03-05T10:00:00Z` renders as `05-03-2024`
on every host whose zone is at most ten hours behind and less than fourteen
hours ahead of UTC. -/
theorem cells_agree (host : Host) (data : List Record) (sel : List Header)
    (hcat : ∀ h ∈ sel, h ∈ allHeaders) (hnd : sel.Nodup)
    (hdate : dateHeader ∈ sel →
      ∀ item ∈ data, (host.timeValue (getProp item "createdAt")).isSome = true) :
    ∃ rows body,
      worksheetData host (sel.map (fun h => ⟨h.label, h.value⟩)) data =
        .ok (sel.map (fun h => (h.label, JsVal.str h.label)) :: rows)
      ∧ pdfRows host (sel.map some) data = .ok body
      ∧ List.Forall₂
          (fun row cells => List.Forall₂ (fun h c => getProp row h.label = c) sel cells)
          rows body
      ∧ List.Forall₂
          (fun item cells =>
            List.Forall₂ (fun h c => renderedValue host item h = some c) sel cells)
          data body
      ∧ (∀ t : Int,
          (addLeadingZeros (localDate host t).2.2 2).length = 2
          ∧ (addLeadingZeros (localDate host t).2.1 2).length = 2
          ∧ 4 ≤ (yearText (localDate host t).1).length
          ∧ (1 ≤ (localDate host t).1 → (localDate host t).1 ≤ 9999 →
              (yearText (localDate host t).1).length = 4))
      ∧ (∀ item : Record,
          getProp item "createdAt" = .str "2024-03-05T10:00:00Z" →
          host.timeValue (.str "2024-03-05T10:00:00Z") = some 1709632800000 →
          -600 ≤ host.tzOffset 1709632800000 → host.tzOffset 1709632800000 < 840 →
          renderedValue host item dateHeader = some (.str "05-03-2024")) := by
  have hv := rendered_isSome host data sel hcat hdate
  have hlab := catalog_labels_nodup sel hcat hnd
  refine ⟨data.map (fun item =>
      sel.map (fun h => (h.label, (renderedValue host item h).getD .undefined))),
    data.map (fun item => sel.map (fun h => (renderedValue host item h).getD .undefined)),
    worksheetData_catalog host data sel hcat hnd hv, pdfRows_catalog host data sel hv,
    ?_, ?_, localDate_text_shape host, ?_⟩
  · rw [List.forall₂_map_left_iff, List.forall₂_map_right_iff]
    refine List.forall₂_same.2 (fun item _ => ?_)
    rw [List.forall₂_map_right_iff]
    exact List.forall₂_same.2 (fun h hh => getProp_map_label sel _ hlab h hh)
  · rw [List.forall₂_map_right_iff]
    refine List.forall₂_same.2 (fun item hitem => ?_)
    rw [List.forall₂_map_right_iff]
    refine List.forall₂_same.2 (fun h hh => ?_)
    obtain ⟨v, hv'⟩ := Option.isSome_iff_exists.1 (hv item hitem h hh)
    simp only [hv', Option.getD_some]
  · intro item hraw htv h1 h2
    unfold renderedValue
    have hk : dateHeader.value = "createdAt" := rfl
    simp only [hk, if_true, hraw, htv, Option.map_some']
    rw [sample_instant_local host h1 h2]

/-- Witness of C5, amended: `Name` and `Date of Registration` over a cleaned
record, on a host on UTC. -/
theorem cells_agree_witness :
    ∃ rows body,
      worksheetData utcHost ([nameHeader, dateHeader].map (fun h => ⟨h.label, h.value⟩))
          [cleanRecord sampleRaw] =
        .ok ([nameHeader, dateHeader].map (fun h => (h.label, JsVal.str h.label)) :: rows)
      ∧ pdfRows utcHost ([nameHeader, dateHeader].map some) [cleanRecord sampleRaw] = .ok body
      ∧ List.Forall₂
          (fun row cells =>
            List.Forall₂ (fun h c => getProp row h.label = c) [nameHeader, dateHeader] cells)
          rows body
      ∧ List.Forall₂
          (fun item cells =>
            List.Forall₂ (fun h c => renderedValue utcHost item h = some c)
              [nameHeader, dateHeader] cells)
          [cleanRecord sampleRaw] body
      ∧ (∀ t : Int,
          (addLeadingZeros (localDate utcHost t).2.2 2).length = 2
          ∧ (addLeadingZeros (localDate utcHost t).2.1 2).length = 2
          ∧ 4 ≤ (yearText (localDate utcHost t).1).length
          ∧ (1 ≤ (localDate utcHost t).1 → (localDate utcHost t).1 ≤ 9999 →
              (yearText (localDate utcHost t).1).length = 4))
      ∧ (∀ item : Record,
          getProp item "createdAt" = .str "2024-03-05T10:00:00Z" →
          utcHost.timeValue (.str "2024-03-05T10:00:00Z") = some 1709632800000 →
          -600 ≤ utcHost.tzOffset 1709632800000 → utcHost.tzOffset 1709632800000 < 840 →
          renderedValue utcHost item dateHeader = some (.str "05-03-2024")) :=
  cells_agree utcHost [cleanRecord sampleRaw] [nameHeader, dateHeader] (by decide) (by decide)
    (fun _ item hitem => by
      rw [List.mem_singleton] at hitem
      subst hitem
      rfl)

/-- C6. A valid export attempt whose response has an absent or empty `data`
list invokes no renderer and produces no file, shows exactly one
notification, whose text is the server-supplied `message` when there is one
(a truthy value, as `||` tests it) and "Empty Registrations" otherwise, and
leaves both in-flight flags false. -/
theorem empty_result_reports_error (host : Host) (server : String → String → NetResult)
    (s : State) (fileFormat : String) (a b : Int) (data : Option (List Record))
    (msg : JsVal)
    (hf : s.fromDate = some a) (ht : s.toDate = some b) (hs : s.selectedHeaders ≠ [])
    (hsrv : server (formatValid host a .yyyyMMdd) (formatValid host b .yyyyMMdd)
      = .resolved data msg)
    (hdata : data = none ∨ data = some []) :
    renders (fetchRegistrations host server s fileFormat).2 = []
    ∧ (fetchRegistrations host server s fileFormat).2.countP Effect.isFile = 0
    ∧ toasts (fetchRegistrations host server s fileFormat).2
        = [if msg.truthy = true then msg else .str "Empty Registrations"]
    ∧ (fetchRegistrations host server s fileFormat).1.isLoadingExcel = false
    ∧ (fetchRegistrations host server s fileFormat).1.isLoadingPDF = false := by
  rw [fetch_valid host server s fileFormat a b hf ht hs,
    tryBlock_empty host server _ a b fileFormat data msg hsrv hdata]
  refine ⟨rfl, rfl, ?_, rfl, rfl⟩
  simp only [List.append_nil, toasts, jsOr]

/-- Witness of C6: the source answers with an empty list and a message. -/
theorem empty_result_reports_error_witness :
    toasts (fetchRegistrations utcHost emptyServer sampleState "csv").2
      = [if (JsVal.str "No registrations found").truthy = true
         then .str "No registrations found" else .str "Empty Registrations"] :=
  (empty_result_reports_error utcHost emptyServer sampleState "csv" 1709251200000
    1711843200000 (some []) (.str "No registrations found") rfl rfl
    (by simp [sampleState]) rfl (Or.inr rfl)).2.2.1

/-- C7. A valid export attempt whose request fails produces no file, invokes
no renderer, issues exactly one request (no retry) and shows exactly one
notification, whose text is the server-supplied error message when the
failure carries one (a truthy `error.response?.data?.message`) and
"Error fetching registrations" otherwise. -/
theorem transport_failure_reports_error (host : Host)
    (server : String → String → NetResult) (s : State) (fileFormat : String) (a b : Int)
    (serverMessage : JsVal)
    (hf : s.fromDate = some a) (ht : s.toDate = some b) (hs : s.selectedHeaders ≠ [])
    (hsrv : server (formatValid host a .yyyyMMdd) (formatValid host b .yyyyMMdd)
      = .rejected serverMessage) :
    (fetchRegistrations host server s fileFormat).2.countP Effect.isFile = 0
    ∧ renders (fetchRegistrations host server s fileFormat).2 = []
    ∧ (fetchRegistrations host server s fileFormat).2.countP Effect.isRequest = 1
    ∧ toasts (fetchRegistrations host server s fileFormat).2
        = [if serverMessage.truthy = true then serverMessage
           else .str "Error fetching registrations"] := by
  rw [fetch_valid host server s fileFormat a b hf ht hs,
    tryBlock_rejected host server _ a b fileFormat serverMessage hsrv]
  refine ⟨rfl, rfl, rfl, ?_⟩
  simp only [catchBlock, List.cons_append, List.nil_append, toasts, jsOr]

/-- Witness of C7: the source cannot be reached. -/
theorem transport_failure_reports_error_witness :
    (fetchRegistrations utcHost downServer sampleState "pdf").2.countP Effect.isRequest = 1
    ∧ toasts (fetchRegistrations utcHost downServer sampleState "pdf").2
        = [if JsVal.undefined.truthy = true then .undefined
           else .str "Error fetching registrations"] :=
  (transport_failure_reports_error utcHost downServer sampleState "pdf" 1709251200000
    1711843200000 .undefined rfl rfl (by simp [sampleState]) rfl).2.2

/-- Counterexample to C8 as stated: on the validation-error path (to-date
missing) the from-date and the selection are still there after the call. -/
theorem inputs_reset_counterexample :
    ¬ ((fetchRegistrations utcHost sampleServer
          { sampleState with toDate := none } "csv").1.fromDate = none
       ∧ (fetchRegistrations utcHost sampleServer
          { sampleState with toDate := none } "csv").1.toDate = none
       ∧ (fetchRegistrations utcHost sampleServer
          { sampleState with toDate := none } "csv").1.selectedHeaders = [none]) := by
  have h : (fetchRegistrations utcHost sampleServer
      { sampleState with toDate := none } "csv").1 = { sampleState with toDate := none } := rfl
  rw [h]
  decide

/-- C8, amended. On every path of an export attempt that passes validation
(empty result, successful export, exception in a renderer, transport
failure), when `fetchRegistrations` returns both in-flight flags are false,
`fromDate` and `toDate` are null and the selection is the single null
placeholder; on the validation-error path the call returns before the
`try` block and leaves the whole state as it was. -/
theorem state_after_attempt (host : Host) (server : String → String → NetResult)
    (s : State) (fileFormat : String) :
    ((s.fromDate ≠ none ∧ s.toDate ≠ none ∧ s.selectedHeaders ≠ []) →
      (fetchRegistrations host server s fileFormat).1.isLoadingExcel = false
      ∧ (fetchRegistrations host server s fileFormat).1.isLoadingPDF = false
      ∧ (fetchRegistrations host server s fileFormat).1.fromDate = none
      ∧ (fetchRegistrations host server s fileFormat).1.toDate = none
      ∧ (fetchRegistrations host server s fileFormat).1.selectedHeaders = [none])
    ∧ ((s.fromDate = none ∨ s.toDate = none ∨ s.selectedHeaders = []) →
      (fetchRegistrations host server s fileFormat).1 = s) := by
  constructor
  · rintro ⟨hf, ht, hs⟩
    obtain ⟨a, ha⟩ := Option.ne_none_iff_exists'.1 hf
    obtain ⟨b, hb⟩ := Option.ne_none_iff_exists'.1 ht
    rw [fetch_valid host server s fileFormat a b ha hb hs]
    exact ⟨rfl, rfl, rfl, rfl, rfl⟩
  · intro h
    unfold fetchRegistrations
    cases hf : s.fromDate with
    | none => simp
    | some a =>
      cases ht : s.toDate with
      | none => simp
      | some b =>
        have hs : s.selectedHeaders = [] := by simpa [hf, ht] using h
        simp [hs]

/-- Witness of C8, amended: a successful spreadsheet export. -/
theorem state_after_attempt_witness :
    (fetchRegistrations utcHost sampleServer sampleState "csv").1.isLoadingExcel = false
    ∧ (fetchRegistrations utcHost sampleServer sampleState "csv").1.isLoadingPDF = false
    ∧ (fetchRegistrations utcHost sampleServer sampleState "csv").1.fromDate = none
    ∧ (fetchRegistrations utcHost sampleServer sampleState "csv").1.toDate = none
    ∧ (fetchRegistrations utcHost sampleServer sampleState "csv").1.selectedHeaders = [none] :=
  (state_after_attempt utcHost sampleServer sampleState "csv").1
    ⟨by simp [sampleState], by simp [sampleState], by simp [sampleState]⟩

/-- C9. In the state an export attempt that reached the network call leaves
behind (`selectedHeaders = [null]`), once both dates are picked again and no
field is selected, the next call is not stopped by the empty-selection check:
its trace starts with the network request, and that is its only request,
although no entry of the selection is a catalog field. -/
theorem null_placeholder_passes_validation (host : Host)
    (server : String → String → NetResult) (s : State) (fileFormat : String)
    (a b : Int) (hf : s.fromDate = some a) (ht : s.toDate = some b)
    (hs : s.selectedHeaders ≠ [])
    (server2 : String → String → NetResult) (fileFormat2 : String) (a2 b2 : Int) :
    (fetchRegistrations host server s fileFormat).1.selectedHeaders = [none]
    ∧ (∀ h : Header, some h ∉ (fetchRegistrations host server s fileFormat).1.selectedHeaders)
    ∧ (fetchRegistrations host server2
        { (fetchRegistrations host server s fileFormat).1 with
          fromDate := some a2, toDate := some b2 } fileFormat2).2.head?
      = some (.post endpoint (formatValid host a2 .yyyyMMdd) (formatValid host b2 .yyyyMMdd))
    ∧ (fetchRegistrations host server2
        { (fetchRegistrations host server s fileFormat).1 with
          fromDate := some a2, toDate := some b2 } fileFormat2).2.countP Effect.isRequest
      = 1 := by
  have h1 : (fetchRegistrations host server s fileFormat).1.selectedHeaders = [none] := by
    rw [fetch_valid host server s fileFormat a b hf ht hs]
    rfl
  refine ⟨h1, ?_, ?_, ?_⟩
  · intro h; rw [h1]; simp
  · rw [fetch_valid host server2 _ fileFormat2 a2 b2 rfl rfl (by simp [h1])]
    obtain ⟨rest, hrest, _⟩ := tryBlock_post host server2
      (if fileFormat2 = "csv" then
        { ({ (fetchRegistrations host server s fileFormat).1 with
              fromDate := some a2, toDate := some b2 } : State) with isLoadingExcel := true }
       else
        { ({ (fetchRegistrations host server s fileFormat).1 with
              fromDate := some a2, toDate := some b2 } : State) with isLoadingPDF := true })
      a2 b2 fileFormat2
    simp only [hrest, List.cons_append, List.head?_cons]
  · rw [fetch_valid host server2 _ fileFormat2 a2 b2 rfl rfl (by simp [h1])]
    obtain ⟨rest, hrest, hcount⟩ := tryBlock_post host server2
      (if fileFormat2 = "csv" then
        { ({ (fetchRegistrations host server s fileFormat).1 with
              fromDate := some a2, toDate := some b2 } : State) with isLoadingExcel := true }
       else
        { ({ (fetchRegistrations host server s fileFormat).1 with
              fromDate := some a2, toDate := some b2 } : State) with isLoadingPDF := true })
      a2 b2 fileFormat2
    simp only [hrest, List.cons_append, List.countP_cons, List.countP_append, hcount]
    cases (tryBlock host server2 _ a2 b2 fileFormat2).thrown with
    | none => rfl
    | some e => rfl

/-- Witness of C9: a failed attempt, then the same dates picked again. -/
theorem null_placeholder_passes_validation_witness :
    (fetchRegistrations utcHost sampleServer
        { (fetchRegistrations utcHost downServer sampleState "csv").1 with
          fromDate := some 1709251200000, toDate := some 1711843200000 } "csv").2.countP
        Effect.isRequest = 1 :=
  (null_placeholder_passes_validation utcHost downServer sampleState "csv" 1709251200000
    1711843200000 rfl rfl (by simp [sampleState]) sampleServer "csv" 1709251200000
    1711843200000).2.2.2

/-- C10. The seven keys of the catalog `allHeaders` are pairwise distinct,
so are its seven labels, and no key is denylisted; hence for every raw
record and every catalog field the cleaned record holds under the field's
key the value the raw record holds there. -/
theorem catalog_survives_cleaning (raw : Record) (h : Header) (hmem : h ∈ allHeaders) :
    allHeaders.map Header.value
      = ["firstName", "age", "gender", "email", "mobile_number", "createdAt", "patientId"]
    ∧ (allHeaders.map Header.value).Nodup
    ∧ (allHeaders.map Header.label).Nodup
    ∧ (∀ h' ∈ allHeaders, h'.value ∉ denylist)
    ∧ denylist.length = 12
    ∧ getProp (cleanRecord raw) h.value = getProp raw h.value := by
  have hall : ∀ h' ∈ allHeaders, h'.value ∉ denylist := by decide
  exact ⟨rfl, by decide, by decide, hall, rfl, getProp_cleanRecord raw h.value (hall h hmem)⟩

/-- Witness of C10: the e-mail address of a full raw record. -/
theorem catalog_survives_cleaning_witness :
    getProp (cleanRecord sampleRaw) emailHeader.value = getProp sampleRaw emailHeader.value :=
  (catalog_survives_cleaning sampleRaw emailHeader (by decide)).2.2.2.2.2

end HomePage
